import Mathlib

/-
Verification of the iRONS reservoir mass-balance simulator `syst_sim`
(notebook cell, source lines 627-658) and the log-exponential release
policy, over a shallow embedding in Lean 4.

The Python function is

  def syst_sim(N,I,e,d,S0,Smax,env_min,Qreg):
      S = [0]*(N+1)
      spill = [0]*N
      env = [env_min]*N
      S[0] = S0
      for t in range(N):
          if env_min >= I[t] :
              env[t] = I[t]
          if env_min >= S[t] + I[t] - e[t]:
              env[t] = max(0,S[t] + I[t] - e[t])
          if d[t] >= S[t] + I[t] - e[t] - env[t]:
              Qreg[t] = min(Qreg[t],max(0,S[t] + I[t] - e[t] - env[t]))
          spill[t] = max(0,S[t] + I[t] - Qreg[t] - env[t] - e[t] - Smax)
          S[t+1] = S[t] + I[t] - Qreg[t] - env[t]- e[t] - spill[t]
      return S,env,spill,Qreg

Numbers are modelled by the rationals (the arithmetic used is +, -, min,
max and comparisons only; no rounding is involved so exact arithmetic is
faithful up to floating-point tolerance).  Python lists are Lean lists and
in-place assignment `xs[i] = v` is `List.set`; an out-of-range read
(Python IndexError) makes the simulation return `none`.  The structure
field `Qreg` of the state models the caller-supplied array `Qreg`, which
the source mutates in place and returns.
-/

/-- State of one `syst_sim` call: the working arrays `S`, `env`, `spill`
and the caller-supplied release array `Qreg` (aliased and mutated in place
by the source). -/
structure SimState where
  S : List ℚ
  env : List ℚ
  spill : List ℚ
  Qreg : List ℚ
deriving Repr, DecidableEq

/-- Environmental-release rules of the loop body (source lines 643-648):
`env0` is the current content of `env[t]` (initially `env_min`);
if `env_min >= I[t]` set it to `I[t]`, then if `env_min >= S[t]+I[t]-e[t]`
overwrite with `max(0, S[t]+I[t]-e[t])`. -/
def envStep (env_min env0 St It et : ℚ) : ℚ :=
  let env1 := if env_min ≥ It then It else env0
  if env_min ≥ St + It - et then max 0 (St + It - et) else env1

/-- Release-clamping rule (source lines 651-652): when the demand `d[t]`
reaches the remaining resource, `Qreg[t] = min(Qreg[t], max(0, S[t]+I[t]-e[t]-env[t]))`. -/
def QregStep (dt qt St It et envt : ℚ) : ℚ :=
  if dt ≥ St + It - et - envt then min qt (max 0 (St + It - et - envt)) else qt

/-- Spill rule (source line 654): `spill[t] = max(0, S[t]+I[t]-Qreg[t]-env[t]-e[t]-Smax)`. -/
def spillStep (Smax St It qt envt et : ℚ) : ℚ :=
  max 0 (St + It - qt - envt - et - Smax)

/-- Mass-balance update (source line 656):
`S[t+1] = S[t]+I[t]-Qreg[t]-env[t]-e[t]-spill[t]`. -/
def storageStep (St It qt envt et spt : ℚ) : ℚ :=
  St + It - qt - envt - et - spt

/-- One iteration of the `for t in range(N)` loop body; `none` models the
IndexError raised when a series is shorter than the index demanded. -/
def syst_sim_step (I e d : List ℚ) (Smax env_min : ℚ) (t : ℕ) (st : SimState) :
    Option SimState :=
  match I[t]?, e[t]?, d[t]?, st.S[t]?, st.env[t]?, st.Qreg[t]? with
  | some It, some et, some dt, some St, some env0, some qt =>
    let envt := envStep env_min env0 St It et
    let qt' := QregStep dt qt St It et envt
    let spt := spillStep Smax St It qt' envt et
    let St1 := storageStep St It qt' envt et spt
    some ⟨st.S.set (t+1) St1, st.env.set t envt, st.spill.set t spt, st.Qreg.set t qt'⟩
  | _, _, _, _, _, _ => none

/-- The loop `for t in range(N)`, running steps `t, t+1, ..., t+k-1`. -/
def syst_sim_go (I e d : List ℚ) (Smax env_min : ℚ) : ℕ → ℕ → SimState → Option SimState
  | 0, _, st => some st
  | k+1, t, st =>
    (syst_sim_step I e d Smax env_min t st).bind (syst_sim_go I e d Smax env_min k (t+1))

/-- Embedding of `def syst_sim(N,I,e,d,S0,Smax,env_min,Qreg)` (source lines
627-658): arrays are initialised as in the source (`S = [0]*(N+1)` then
`S[0] = S0`, `spill = [0]*N`, `env = [env_min]*N`) and the loop is run for
`t = 0 .. N-1`.  The returned `SimState` holds the four returned arrays
`S, env, spill, Qreg`. -/
def syst_sim (N : ℕ) (I e d : List ℚ) (S0 Smax env_min : ℚ) (Qreg : List ℚ) :
    Option SimState :=
  syst_sim_go I e d Smax env_min N 0
    ⟨(List.replicate (N+1) (0:ℚ)).set 0 S0, List.replicate N env_min,
      List.replicate N (0:ℚ), Qreg⟩

/-- The relations that hold between the returned trajectories at step `j`:
each entry is produced by the corresponding rule of the loop body from the
stored storage `S[j]`, the inputs at `j`, and the caller's original
requested release `Qin[j]`. -/
def stepFacts (I e d Qin : List ℚ) (Smax env_min : ℚ) (st : SimState) (j : ℕ) : Prop :=
  st.env.getD j 0 = envStep env_min env_min (st.S.getD j 0) (I.getD j 0) (e.getD j 0)
  ∧ st.Qreg.getD j 0 =
      QregStep (d.getD j 0) (Qin.getD j 0) (st.S.getD j 0) (I.getD j 0) (e.getD j 0)
        (st.env.getD j 0)
  ∧ st.spill.getD j 0 =
      spillStep Smax (st.S.getD j 0) (I.getD j 0) (st.Qreg.getD j 0) (st.env.getD j 0)
        (e.getD j 0)
  ∧ st.S.getD (j+1) 0 =
      storageStep (st.S.getD j 0) (I.getD j 0) (st.Qreg.getD j 0) (st.env.getD j 0)
        (e.getD j 0) (st.spill.getD j 0)

/-- Value taken by `env[t]` during iteration `t` of the loop. -/
def envAt (I e : List ℚ) (env_min : ℚ) (t : ℕ) (st : SimState) : ℚ :=
  envStep env_min (st.env.getD t 0) (st.S.getD t 0) (I.getD t 0) (e.getD t 0)

/-- Value taken by `Qreg[t]` during iteration `t` of the loop. -/
def qregAt (I e d : List ℚ) (env_min : ℚ) (t : ℕ) (st : SimState) : ℚ :=
  QregStep (d.getD t 0) (st.Qreg.getD t 0) (st.S.getD t 0) (I.getD t 0) (e.getD t 0)
    (envAt I e env_min t st)

/-- Value taken by `spill[t]` during iteration `t` of the loop. -/
def spillAt (I e d : List ℚ) (Smax env_min : ℚ) (t : ℕ) (st : SimState) : ℚ :=
  spillStep Smax (st.S.getD t 0) (I.getD t 0) (qregAt I e d env_min t st)
    (envAt I e env_min t st) (e.getD t 0)

/-- Value taken by `S[t+1]` during iteration `t` of the loop. -/
def newSAt (I e d : List ℚ) (Smax env_min : ℚ) (t : ℕ) (st : SimState) : ℚ :=
  storageStep (st.S.getD t 0) (I.getD t 0) (qregAt I e d env_min t st)
    (envAt I e env_min t st) (e.getD t 0) (spillAt I e d Smax env_min t st)

/-- The state produced by one successful loop iteration. -/
def stepVals (I e d : List ℚ) (Smax env_min : ℚ) (t : ℕ) (st : SimState) : SimState :=
  ⟨st.S.set (t+1) (newSAt I e d Smax env_min t st),
    st.env.set t (envAt I e env_min t st),
    st.spill.set t (spillAt I e d Smax env_min t st),
    st.Qreg.set t (qregAt I e d env_min t st)⟩

/-- Modelled from the spec: the logarithmic branch of the source operation
`op_logexp_1res_v1` (imported from `irons.Software.operating_policy`, a
module not present in the sources); per the spec and the notebook formulas,
for `storage_fraction < s_frac_ref` the release is
`u_ref * (u_frac_min + ln(k * s_frac^alpha + 1))` with
`k = 1 / (s_frac_ref^alpha) * (exp(1 - u_frac_min) - 1)`. -/
noncomputable def logexp_log_branch (u_frac_min s_frac_ref alpha u_ref s_frac : ℝ) : ℝ :=
  (u_frac_min + Real.log (1 / s_frac_ref ^ alpha * (Real.exp (1 - u_frac_min) - 1)
      * s_frac ^ alpha + 1)) * u_ref

/-- Modelled from the spec: the exponential branch of `op_logexp_1res_v1`;
for `storage_fraction ≥ s_frac_ref` the release is
`u_ref * exp(b * (s_frac - s_frac_ref)^2)`. -/
noncomputable def logexp_exp_branch (s_frac_ref b u_ref s_frac : ℝ) : ℝ :=
  Real.exp (b * (s_frac - s_frac_ref) ^ 2) * u_ref

/-- Modelled from the spec: `log_exponential_release(u_frac_min, s_frac_ref,
alpha, b, u_ref, storage_fraction)` selects the logarithmic branch below
`s_frac_ref` and the exponential branch at or above it. -/
noncomputable def log_exponential_release
    (u_frac_min s_frac_ref alpha b u_ref s_frac : ℝ) : ℝ :=
  if s_frac < s_frac_ref then logexp_log_branch u_frac_min s_frac_ref alpha u_ref s_frac
  else logexp_exp_branch s_frac_ref b u_ref s_frac

/-- Helper: a successful indexed read determines the `getD` value. -/
lemma getD_of_getElem?_eq (l : List ℚ) (i : ℕ) (a : ℚ) (h : l[i]? = some a) :
    l.getD i 0 = a := by
  simp [List.getD_eq_getElem?_getD, h]

/-- Helper: a successful indexed read implies the index is in range. -/
lemma lt_length_of_getElem?_eq (l : List ℚ) (i : ℕ) (a : ℚ) (h : l[i]? = some a) :
    i < l.length := by
  by_contra hc
  rw [List.getElem?_eq_none (Nat.le_of_not_lt hc)] at h
  exact Option.noConfusion h

/-- Helper: reading back an in-range write. -/
lemma getD_set_self (l : List ℚ) (i : ℕ) (v : ℚ) (h : i < l.length) :
    (l.set i v).getD i 0 = v := by
  simp [List.getD_eq_getElem?_getD, List.getElem?_set_self, h]

/-- Helper: a write leaves other positions unchanged. -/
lemma getD_set_ne (l : List ℚ) (i j : ℕ) (v : ℚ) (h : i ≠ j) :
    (l.set i v).getD j 0 = l.getD j 0 := by
  simp [List.getD_eq_getElem?_getD, List.getElem?_set_ne, h]

/-- Helper: reading an initialised array. -/
lemma getD_replicate (n i : ℕ) (a : ℚ) (h : i < n) :
    (List.replicate n a).getD i 0 = a := by
  simp [List.getD_eq_getElem?_getD, List.getElem?_replicate, h]

/-- Helper: an in-range read succeeds with the `getD` value. -/
lemma getElem?_eq_some_getD (l : List ℚ) (i : ℕ) (h : i < l.length) :
    l[i]? = some (l.getD i 0) := by
  simp [List.getD_eq_getElem?_getD, List.getElem?_eq_getElem h]

/-- When every read is in range, the loop body succeeds and produces `stepVals`. -/
lemma syst_sim_step_eq (I e d : List ℚ) (Smax env_min : ℚ) (t : ℕ) (st : SimState)
    (hI : t < I.length) (he : t < e.length) (hd : t < d.length)
    (hS : t < st.S.length) (hE : t < st.env.length) (hQ : t < st.Qreg.length) :
    syst_sim_step I e d Smax env_min t st = some (stepVals I e d Smax env_min t st) := by
  rw [syst_sim_step, getElem?_eq_some_getD I t hI, getElem?_eq_some_getD e t he,
    getElem?_eq_some_getD d t hd, getElem?_eq_some_getD st.S t hS,
    getElem?_eq_some_getD st.env t hE, getElem?_eq_some_getD st.Qreg t hQ]
  rfl

/-- A successful loop body implies every read was in range, and lengths are preserved. -/
lemma syst_sim_step_some (I e d : List ℚ) (Smax env_min : ℚ) (t : ℕ) (st st' : SimState)
    (h : syst_sim_step I e d Smax env_min t st = some st') :
    t < I.length ∧ t < e.length ∧ t < d.length ∧ t < st.S.length ∧ t < st.env.length
      ∧ t < st.Qreg.length ∧ st'.Qreg.length = st.Qreg.length := by
  rw [syst_sim_step] at h
  cases hI : I[t]? with
  | none => rw [hI] at h; exact Option.noConfusion h
  | some It =>
  cases he : e[t]? with
  | none => rw [hI, he] at h; exact Option.noConfusion h
  | some et =>
  cases hd : d[t]? with
  | none => rw [hI, he, hd] at h; exact Option.noConfusion h
  | some dt =>
  cases hS : st.S[t]? with
  | none => rw [hI, he, hd, hS] at h; exact Option.noConfusion h
  | some St =>
  cases hE : st.env[t]? with
  | none => rw [hI, he, hd, hS, hE] at h; exact Option.noConfusion h
  | some env0 =>
  cases hQ : st.Qreg[t]? with
  | none => rw [hI, he, hd, hS, hE, hQ] at h; exact Option.noConfusion h
  | some qt =>
    rw [hI, he, hd, hS, hE, hQ] at h
    refine ⟨lt_length_of_getElem?_eq _ _ _ hI, lt_length_of_getElem?_eq _ _ _ he,
      lt_length_of_getElem?_eq _ _ _ hd, lt_length_of_getElem?_eq _ _ _ hS,
      lt_length_of_getElem?_eq _ _ _ hE, lt_length_of_getElem?_eq _ _ _ hQ, ?_⟩
    cases h
    simp

/-- Main loop invariant: running iterations `t .. t+k-1` from a state whose
`env` window still holds `env_min` and whose `Qreg` window still holds the
caller's values `Qin` succeeds, preserves lengths, leaves entries outside
the window unchanged, and establishes `stepFacts` at every index of the
window. -/
lemma go_spec (I e d Qin : List ℚ) (Smax env_min : ℚ) :
    ∀ (k t : ℕ) (st : SimState),
      t + k ≤ I.length → t + k ≤ e.length → t + k ≤ d.length →
      t + k ≤ st.Qreg.length → t + k < st.S.length →
      t + k ≤ st.env.length → t + k ≤ st.spill.length →
      (∀ j, t ≤ j → j < t + k → st.env.getD j 0 = env_min) →
      (∀ j, t ≤ j → st.Qreg.getD j 0 = Qin.getD j 0) →
      ∃ st', syst_sim_go I e d Smax env_min k t st = some st'
        ∧ st'.S.length = st.S.length ∧ st'.env.length = st.env.length
        ∧ st'.spill.length = st.spill.length ∧ st'.Qreg.length = st.Qreg.length
        ∧ (∀ j, j ≤ t → st'.S.getD j 0 = st.S.getD j 0)
        ∧ (∀ j, j < t → st'.env.getD j 0 = st.env.getD j 0)
        ∧ (∀ j, j < t → st'.spill.getD j 0 = st.spill.getD j 0)
        ∧ (∀ j, j < t ∨ t + k ≤ j → st'.Qreg.getD j 0 = st.Qreg.getD j 0)
        ∧ (∀ j, t ≤ j → j < t + k → stepFacts I e d Qin Smax env_min st' j) := by
  intro k
  induction k with
  | zero =>
    intro t st _ _ _ _ _ _ _ _ _
    exact ⟨st, rfl, rfl, rfl, rfl, rfl, fun j _ => rfl, fun j _ => rfl, fun j _ => rfl,
      fun j _ => rfl, fun j h1 h2 => absurd h2 (by omega)⟩
  | succ k ih =>
    intro t st hI he hd hq hS hE hsp hEnvInv hQInv
    have htI : t < I.length := by omega
    have hte : t < e.length := by omega
    have htd : t < d.length := by omega
    have htq : t < st.Qreg.length := by omega
    have htS : t < st.S.length := by omega
    have ht1S : t + 1 < st.S.length := by omega
    have htE : t < st.env.length := by omega
    have htsp : t < st.spill.length := by omega
    have lS1 : (stepVals I e d Smax env_min t st).S.length = st.S.length := by
      simp [stepVals]
    have lE1 : (stepVals I e d Smax env_min t st).env.length = st.env.length := by
      simp [stepVals]
    have lsp1 : (stepVals I e d Smax env_min t st).spill.length = st.spill.length := by
      simp [stepVals]
    have lQ1 : (stepVals I e d Smax env_min t st).Qreg.length = st.Qreg.length := by
      simp [stepVals]
    obtain ⟨st', hgo, hlS, hlE, hlsp, hlQ, hSk, hEk, hspk, hQk, hfacts⟩ :=
      ih (t+1) (stepVals I e d Smax env_min t st)
        (by omega) (by omega) (by omega)
        (by rw [lQ1]; omega) (by rw [lS1]; omega) (by rw [lE1]; omega) (by rw [lsp1]; omega)
        (fun j hj1 hj2 => by
          have : (stepVals I e d Smax env_min t st).env.getD j 0 = st.env.getD j 0 :=
            getD_set_ne st.env t j _ (by omega)
          rw [this]
          exact hEnvInv j (by omega) (by omega))
        (fun j hj1 => by
          have : (stepVals I e d Smax env_min t st).Qreg.getD j 0 = st.Qreg.getD j 0 :=
            getD_set_ne st.Qreg t j _ (by omega)
          rw [this]
          exact hQInv j (by omega))
    refine ⟨st', ?_, ?_, ?_, ?_, ?_, ?_, ?_, ?_, ?_, ?_⟩
    · rw [syst_sim_go, syst_sim_step_eq I e d Smax env_min t st htI hte htd htS htE htq]
      exact hgo
    · rw [hlS, lS1]
    · rw [hlE, lE1]
    · rw [hlsp, lsp1]
    · rw [hlQ, lQ1]
    · intro j hj
      rw [hSk j (by omega)]
      exact getD_set_ne st.S (t+1) j _ (by omega)
    · intro j hj
      rw [hEk j (by omega)]
      exact getD_set_ne st.env t j _ (by omega)
    · intro j hj
      rw [hspk j (by omega)]
      exact getD_set_ne st.spill t j _ (by omega)
    · intro j hj
      rcases hj with hj | hj
      · rw [hQk j (Or.inl (by omega))]
        exact getD_set_ne st.Qreg t j _ (by omega)
      · rw [hQk j (Or.inr (by omega))]
        exact getD_set_ne st.Qreg t j _ (by omega)
    · intro j hj1 hj2
      rcases Nat.eq_or_lt_of_le hj1 with hj | hj
      · -- j = t : translate the freshly written entries back through `stepVals`
        subst hj
        have henvt : st'.env.getD t 0 = envAt I e env_min t st := by
          rw [hEk t (by omega)]
          exact getD_set_self st.env t _ htE
        have hSt : st'.S.getD t 0 = st.S.getD t 0 := by
          rw [hSk t (by omega)]
          exact getD_set_ne st.S (t+1) t _ (by omega)
        have hSt1 : st'.S.getD (t+1) 0 = newSAt I e d Smax env_min t st := by
          rw [hSk (t+1) (by omega)]
          exact getD_set_self st.S (t+1) _ ht1S
        have hqt : st'.Qreg.getD t 0 = qregAt I e d env_min t st := by
          rw [hQk t (Or.inl (by omega))]
          exact getD_set_self st.Qreg t _ htq
        have hspt : st'.spill.getD t 0 = spillAt I e d Smax env_min t st := by
          rw [hspk t (by omega)]
          exact getD_set_self st.spill t _ htsp
        have henv0 : st.env.getD t 0 = env_min := hEnvInv t (by omega) (by omega)
        have hqin : st.Qreg.getD t 0 = Qin.getD t 0 := hQInv t (by omega)
        refine ⟨?_, ?_, ?_, ?_⟩
        · rw [henvt, hSt, envAt, henv0]
        · rw [hqt, hSt, henvt, qregAt, hqin, envAt, henv0]
        · rw [hspt, hSt, hqt, henvt, spillAt, qregAt, envAt, henv0]
        · rw [hSt1, hSt, hqt, henvt, hspt, newSAt, spillAt, qregAt, envAt, henv0]
      · exact hfacts j (by omega) (by omega)

/-- Top-level specification of `syst_sim`: when the four series span the
horizon `N`, the call succeeds and every step of the returned trajectories
is governed by the loop-body rules. -/
theorem syst_sim_spec (N : ℕ) (I e d : List ℚ) (S0 Smax env_min : ℚ) (Qreg : List ℚ)
    (hI : N ≤ I.length) (he : N ≤ e.length) (hd : N ≤ d.length) (hq : N ≤ Qreg.length) :
    ∃ res, syst_sim N I e d S0 Smax env_min Qreg = some res
      ∧ res.S.length = N + 1 ∧ res.env.length = N ∧ res.spill.length = N
      ∧ res.Qreg.length = Qreg.length
      ∧ res.S.getD 0 0 = S0
      ∧ (∀ j, N ≤ j → res.Qreg.getD j 0 = Qreg.getD j 0)
      ∧ ∀ t, t < N → stepFacts I e d Qreg Smax env_min res t := by
  obtain ⟨st', hgo, hlS, hlE, hlsp, hlQ, hSk, hEk, hspk, hQk, hfacts⟩ :=
    go_spec I e d Qreg Smax env_min N 0
      ⟨(List.replicate (N+1) (0:ℚ)).set 0 S0, List.replicate N env_min,
        List.replicate N (0:ℚ), Qreg⟩
      (by simpa) (by simpa) (by simpa) (by simpa) (by simp) (by simp) (by simp)
      (fun j hj1 hj2 => getD_replicate N j env_min (by omega))
      (fun j _ => rfl)
  refine ⟨st', hgo, by simpa using hlS, by simpa using hlE, by simpa using hlsp,
    by simpa using hlQ, ?_, ?_, ?_⟩
  · rw [hSk 0 (Nat.zero_le 0)]
    exact getD_set_self _ 0 S0 (by simp)
  · intro j hj
    exact hQk j (Or.inr (by omega))
  · intro t ht
    exact hfacts t (Nat.zero_le t) (by omega)

/-- A successful run of at least one iteration forces every series to cover
the whole window of indices it reads. -/
lemma go_some_le (I e d : List ℚ) (Smax env_min : ℚ) :
    ∀ (k t : ℕ) (st st' : SimState),
      syst_sim_go I e d Smax env_min (k+1) t st = some st' →
      t + k + 1 ≤ I.length ∧ t + k + 1 ≤ e.length ∧ t + k + 1 ≤ d.length
        ∧ t + k + 1 ≤ st.Qreg.length := by
  intro k
  induction k with
  | zero =>
    intro t st st' h
    rw [syst_sim_go] at h
    cases hstep : syst_sim_step I e d Smax env_min t st with
    | none => rw [hstep] at h; exact Option.noConfusion h
    | some st1 =>
      obtain ⟨h1, h2, h3, _, _, h6, _⟩ := syst_sim_step_some I e d Smax env_min t st st1 hstep
      omega
  | succ k ih =>
    intro t st st' h
    rw [syst_sim_go] at h
    cases hstep : syst_sim_step I e d Smax env_min t st with
    | none => rw [hstep] at h; exact Option.noConfusion h
    | some st1 =>
      rw [hstep] at h
      obtain ⟨hI, he, hd, hq⟩ := ih (t+1) st1 st' h
      obtain ⟨_, _, _, _, _, _, hlen⟩ := syst_sim_step_some I e d Smax env_min t st st1 hstep
      omega

/-- Claim C4 as amended: the simulator performs no input validation and
raises no InvalidInput error — the call produces a result exactly when
every series covers the horizon `N`, with no condition whatever on `S0`,
`Smax` or `env_min` (there is no `Smin` parameter at all), and a too-short
series fails during the stepping, not before it. -/
theorem syst_sim_isSome_iff (N : ℕ) (I e d : List ℚ) (S0 Smax env_min : ℚ) (Qreg : List ℚ) :
    (syst_sim N I e d S0 Smax env_min Qreg).isSome = true ↔
      N ≤ I.length ∧ N ≤ e.length ∧ N ≤ d.length ∧ N ≤ Qreg.length := by
  constructor
  · intro h
    cases N with
    | zero => exact ⟨Nat.zero_le _, Nat.zero_le _, Nat.zero_le _, Nat.zero_le _⟩
    | succ k =>
      rw [Option.isSome_iff_exists] at h
      obtain ⟨st', hst'⟩ := h
      have := go_some_le I e d Smax env_min k 0
        ⟨(List.replicate (k+1+1) (0:ℚ)).set 0 S0, List.replicate (k+1) env_min,
          List.replicate (k+1) (0:ℚ), Qreg⟩ st' hst'
      simpa using this
  · rintro ⟨hI, he, hd, hq⟩
    obtain ⟨res, hres, -⟩ := syst_sim_spec N I e d S0 Smax env_min Qreg hI he hd hq
    rw [hres]
    rfl

/-- Extraction form of the specification: any produced result satisfies the
per-step relations and the out-of-horizon frame condition on `Qreg`. -/
lemma syst_sim_facts (N : ℕ) (I e d : List ℚ) (S0 Smax env_min : ℚ) (Qreg : List ℚ)
    (hI : N ≤ I.length) (he : N ≤ e.length) (hd : N ≤ d.length) (hq : N ≤ Qreg.length)
    (res : SimState) (hres : syst_sim N I e d S0 Smax env_min Qreg = some res) :
    (∀ j, N ≤ j → res.Qreg.getD j 0 = Qreg.getD j 0)
      ∧ ∀ t, t < N → stepFacts I e d Qreg Smax env_min res t := by
  obtain ⟨res', hres', -, -, -, -, -, hframe, hfacts⟩ :=
    syst_sim_spec N I e d S0 Smax env_min Qreg hI he hd hq
  rw [hres] at hres'
  injection hres' with h
  subst h
  exact ⟨hframe, hfacts⟩

/-- Claim C6: for every step t of every simulation, the returned
trajectories satisfy the water balance
`S[t+1] = S[t] + I[t] - Qreg[t] - env[t] - e[t] - spill[t]` exactly. -/
theorem C6_mass_balance (N : ℕ) (I e d : List ℚ) (S0 Smax env_min : ℚ) (Qreg : List ℚ)
    (hI : N ≤ I.length) (he : N ≤ e.length) (hd : N ≤ d.length) (hq : N ≤ Qreg.length)
    (res : SimState) (hres : syst_sim N I e d S0 Smax env_min Qreg = some res)
    (t : ℕ) (ht : t < N) :
    res.S.getD (t+1) 0 =
      res.S.getD t 0 + I.getD t 0 - res.Qreg.getD t 0 - res.env.getD t 0
        - e.getD t 0 - res.spill.getD t 0 := by
  obtain ⟨-, hfacts⟩ := syst_sim_facts N I e d S0 Smax env_min Qreg hI he hd hq res hres
  obtain ⟨-, -, -, hstor⟩ := hfacts t ht
  rw [hstor, storageStep]

/-- Witness for C6 at the concrete scenario `N=1, I=[10], e=[0], d=[15],
S0=50, Smax=100, env_min=2, Qreg=[5]`. -/
theorem C6_witness :
    syst_sim 1 [10] [0] [15] 50 100 2 [5] = some ⟨[50, 53], [2], [0], [5]⟩ ∧
    (⟨[50, 53], [2], [0], [5]⟩ : SimState).S.getD 1 0 =
      (⟨[50, 53], [2], [0], [5]⟩ : SimState).S.getD 0 0 + ([10] : List ℚ).getD 0 0
        - (⟨[50, 53], [2], [0], [5]⟩ : SimState).Qreg.getD 0 0
        - (⟨[50, 53], [2], [0], [5]⟩ : SimState).env.getD 0 0
        - ([0] : List ℚ).getD 0 0
        - (⟨[50, 53], [2], [0], [5]⟩ : SimState).spill.getD 0 0 :=
  ⟨by norm_num [syst_sim, syst_sim_go, syst_sim_step, envStep, QregStep, spillStep,
      storageStep, List.replicate, List.set],
    C6_mass_balance 1 [10] [0] [15] 50 100 2 [5] (by norm_num) (by norm_num) (by norm_num)
      (by norm_num) ⟨[50, 53], [2], [0], [5]⟩
      (by norm_num [syst_sim, syst_sim_go, syst_sim_step, envStep, QregStep, spillStep,
        storageStep, List.replicate, List.set]) 0 (by norm_num)⟩

/-- Claim C7: the regulated release returned by the simulator never exceeds
the requested release held in the caller's `Qreg` series. -/
theorem C7_release_domination (N : ℕ) (I e d : List ℚ) (S0 Smax env_min : ℚ) (Qreg : List ℚ)
    (hI : N ≤ I.length) (he : N ≤ e.length) (hd : N ≤ d.length) (hq : N ≤ Qreg.length)
    (res : SimState) (hres : syst_sim N I e d S0 Smax env_min Qreg = some res)
    (t : ℕ) (ht : t < N) :
    res.Qreg.getD t 0 ≤ Qreg.getD t 0 := by
  obtain ⟨-, hfacts⟩ := syst_sim_facts N I e d S0 Smax env_min Qreg hI he hd hq res hres
  obtain ⟨-, hqreg, -, -⟩ := hfacts t ht
  rw [hqreg, QregStep]
  split
  · exact min_le_left _ _
  · exact le_refl _

/-- Witness for C7 at the deficit scenario `N=1, I=[0], e=[0], d=[5], S0=3,
Smax=100, env_min=4, Qreg=[5]`, where the release is clamped from 5 to 0. -/
theorem C7_witness :
    syst_sim 1 [0] [0] [5] 3 100 4 [5] = some ⟨[3, 0], [3], [0], [0]⟩ ∧
    (⟨[3, 0], [3], [0], [0]⟩ : SimState).Qreg.getD 0 0 ≤ ([5] : List ℚ).getD 0 0 :=
  ⟨by norm_num [syst_sim, syst_sim_go, syst_sim_step, envStep, QregStep, spillStep,
      storageStep, List.replicate, List.set],
    C7_release_domination 1 [0] [0] [5] 3 100 4 [5] (by norm_num) (by norm_num) (by norm_num)
      (by norm_num) ⟨[3, 0], [3], [0], [0]⟩
      (by norm_num [syst_sim, syst_sim_go, syst_sim_step, envStep, QregStep, spillStep,
        storageStep, List.replicate, List.set]) 0 (by norm_num)⟩

/-- Claim C8: spill is never negative, and it is positive only when the
pre-spill storage `S[t] + I[t] - Qreg[t] - env[t] - e[t]` exceeds `Smax`. -/
theorem C8_spill_at_capacity (N : ℕ) (I e d : List ℚ) (S0 Smax env_min : ℚ) (Qreg : List ℚ)
    (hI : N ≤ I.length) (he : N ≤ e.length) (hd : N ≤ d.length) (hq : N ≤ Qreg.length)
    (res : SimState) (hres : syst_sim N I e d S0 Smax env_min Qreg = some res)
    (t : ℕ) (ht : t < N) :
    0 ≤ res.spill.getD t 0 ∧
      (0 < res.spill.getD t 0 →
        res.S.getD t 0 + I.getD t 0 - res.Qreg.getD t 0 - res.env.getD t 0 - e.getD t 0
          > Smax) := by
  obtain ⟨-, hfacts⟩ := syst_sim_facts N I e d S0 Smax env_min Qreg hI he hd hq res hres
  obtain ⟨-, -, hspill, -⟩ := hfacts t ht
  rw [hspill, spillStep]
  constructor
  · exact le_max_left _ _
  · intro hpos
    by_contra hc
    push_neg at hc
    rw [max_eq_left (by linarith)] at hpos
    exact lt_irrefl _ hpos

/-- Witness for C8 at the spill scenario `N=1, I=[60], e=[0], d=[15], S0=90,
Smax=100, env_min=2, Qreg=[5]`, where `spill = 43`. -/
theorem C8_witness :
    syst_sim 1 [60] [0] [15] 90 100 2 [5] = some ⟨[90, 100], [2], [43], [5]⟩ ∧
    (0 ≤ (⟨[90, 100], [2], [43], [5]⟩ : SimState).spill.getD 0 0 ∧
      (0 < (⟨[90, 100], [2], [43], [5]⟩ : SimState).spill.getD 0 0 →
        (⟨[90, 100], [2], [43], [5]⟩ : SimState).S.getD 0 0 + ([60] : List ℚ).getD 0 0
          - (⟨[90, 100], [2], [43], [5]⟩ : SimState).Qreg.getD 0 0
          - (⟨[90, 100], [2], [43], [5]⟩ : SimState).env.getD 0 0
          - ([0] : List ℚ).getD 0 0 > 100)) :=
  ⟨by norm_num [syst_sim, syst_sim_go, syst_sim_step, envStep, QregStep, spillStep,
      storageStep, List.replicate, List.set],
    C8_spill_at_capacity 1 [60] [0] [15] 90 100 2 [5] (by norm_num) (by norm_num)
      (by norm_num) (by norm_num) ⟨[90, 100], [2], [43], [5]⟩
      (by norm_num [syst_sim, syst_sim_go, syst_sim_step, envStep, QregStep, spillStep,
        storageStep, List.replicate, List.set]) 0 (by norm_num)⟩

/-- Counterexample to claim C1: with well-formed inputs in the claim's sense
(series of length N = 1, non-negative inflow `[0]`, evaporation `[0]` and
demand `[3]`, bounds `0 ≤ Smax = 100`, initial storage `10` inside
`[0, 100]`), the storage after the first step is `-10`, strictly below the
claimed lower bound `Smin = 0`: the release clamp is conditioned on the
demand, not on the requested release `20`, so the trajectory leaves the
claimed band. -/
theorem C1_counterexample :
    (syst_sim 1 [0] [0] [3] 10 100 0 [20]).map SimState.S = some [10, -10] ∧
    ((0:ℚ) ≤ 0 ∧ (0:ℚ) ≤ 0 ∧ (0:ℚ) ≤ 3 ∧ (0:ℚ) ≤ 100 ∧ (0:ℚ) ≤ 10 ∧ (10:ℚ) ≤ 100) ∧
    ¬ ((0:ℚ) ≤ -10) := by
  refine ⟨?_, by norm_num, by norm_num⟩
  norm_num [syst_sim, syst_sim_go, syst_sim_step, envStep, QregStep, spillStep,
    storageStep, List.replicate, List.set]

/-- Claim C1 as amended: only the upper bound survives — after every step
`S[t+1] ≤ Smax`, enforced by the spill clamping; the simulator has no
`Smin` parameter and the storage can fall below any lower bound. -/
theorem C1_storage_upper_bound (N : ℕ) (I e d : List ℚ) (S0 Smax env_min : ℚ)
    (Qreg : List ℚ)
    (hI : N ≤ I.length) (he : N ≤ e.length) (hd : N ≤ d.length) (hq : N ≤ Qreg.length)
    (res : SimState) (hres : syst_sim N I e d S0 Smax env_min Qreg = some res)
    (t : ℕ) (ht : t < N) :
    res.S.getD (t+1) 0 ≤ Smax := by
  obtain ⟨-, hfacts⟩ := syst_sim_facts N I e d S0 Smax env_min Qreg hI he hd hq res hres
  obtain ⟨-, -, hspill, hstor⟩ := hfacts t ht
  rw [hstor, storageStep, hspill, spillStep]
  rcases le_or_lt (res.S.getD t 0 + I.getD t 0 - res.Qreg.getD t 0 - res.env.getD t 0
      - e.getD t 0 - Smax) 0 with hc | hc
  · rw [max_eq_left hc]
    linarith
  · rw [max_eq_right (le_of_lt hc)]
    linarith

/-- Witness for the amended C1 at the spill scenario, where the pre-spill
storage 143 is clamped back to `Smax = 100`. -/
theorem C1_witness :
    syst_sim 1 [60] [0] [15] 90 100 2 [5] = some ⟨[90, 100], [2], [43], [5]⟩ ∧
    (⟨[90, 100], [2], [43], [5]⟩ : SimState).S.getD 1 0 ≤ 100 :=
  ⟨by norm_num [syst_sim, syst_sim_go, syst_sim_step, envStep, QregStep, spillStep,
      storageStep, List.replicate, List.set],
    C1_storage_upper_bound 1 [60] [0] [15] 90 100 2 [5] (by norm_num) (by norm_num)
      (by norm_num) (by norm_num) ⟨[90, 100], [2], [43], [5]⟩
      (by norm_num [syst_sim, syst_sim_go, syst_sim_step, envStep, QregStep, spillStep,
        storageStep, List.replicate, List.set]) 0 (by norm_num)⟩

/-- Counterexample to claim C2: at `S=10, I=0, e=0, env=0` the requested
release `u_req = 20` exceeds the remaining water `10`, yet because the
demand `d = 3` is below the remaining water the code does not clamp: the
output release is `20`, not `min(20, max(0, 10)) = 10` as the claim
demands. -/
theorem C2_counterexample :
    (syst_sim 1 [0] [0] [3] 10 100 0 [20]).map SimState.Qreg = some [20] ∧
    (syst_sim 1 [0] [0] [3] 10 100 0 [20]).map SimState.env = some [0] ∧
    (20:ℚ) > 10 + 0 - 0 - 0 ∧
    (20:ℚ) ≠ min 20 (max 0 (10 + 0 - 0 - 0)) := by
  refine ⟨?_, ?_, by norm_num, by norm_num⟩ <;>
    norm_num [syst_sim, syst_sim_go, syst_sim_step, envStep, QregStep, spillStep,
      storageStep, List.replicate, List.set]

/-- Claim C2 as amended: the clamp is triggered by the demand series, not by
the requested release — when `d[t] ≥ S[t]+I[t]-e[t]-env[t]` the output is
`Qreg[t] = min(u_req[t], max(0, S[t]+I[t]-e[t]-env[t]))`, and otherwise
`Qreg[t] = u_req[t]` unchanged, even when `u_req[t]` exceeds the remaining
water. -/
theorem C2_release_clamp (N : ℕ) (I e d : List ℚ) (S0 Smax env_min : ℚ) (Qreg : List ℚ)
    (hI : N ≤ I.length) (he : N ≤ e.length) (hd : N ≤ d.length) (hq : N ≤ Qreg.length)
    (res : SimState) (hres : syst_sim N I e d S0 Smax env_min Qreg = some res)
    (t : ℕ) (ht : t < N) :
    (d.getD t 0 ≥ res.S.getD t 0 + I.getD t 0 - e.getD t 0 - res.env.getD t 0 →
      res.Qreg.getD t 0 =
        min (Qreg.getD t 0)
          (max 0 (res.S.getD t 0 + I.getD t 0 - e.getD t 0 - res.env.getD t 0))) ∧
    (¬ d.getD t 0 ≥ res.S.getD t 0 + I.getD t 0 - e.getD t 0 - res.env.getD t 0 →
      res.Qreg.getD t 0 = Qreg.getD t 0) := by
  obtain ⟨-, hfacts⟩ := syst_sim_facts N I e d S0 Smax env_min Qreg hI he hd hq res hres
  obtain ⟨-, hqreg, -, -⟩ := hfacts t ht
  rw [hqreg, QregStep]
  constructor
  · intro hcond
    rw [if_pos hcond]
  · intro hcond
    rw [if_neg hcond]

/-- Witness for the amended C2 at the deficit scenario: the demand 5 reaches
the remaining water 0, so the release is clamped to `min(5, max(0,0)) = 0`. -/
theorem C2_witness :
    syst_sim 1 [0] [0] [5] 3 100 4 [5] = some ⟨[3, 0], [3], [0], [0]⟩ ∧
    ((⟨[3, 0], [3], [0], [0]⟩ : SimState).Qreg.getD 0 0 =
        min (([5] : List ℚ).getD 0 0)
          (max 0 ((⟨[3, 0], [3], [0], [0]⟩ : SimState).S.getD 0 0 + ([0] : List ℚ).getD 0 0
            - ([0] : List ℚ).getD 0 0 - (⟨[3, 0], [3], [0], [0]⟩ : SimState).env.getD 0 0))) :=
  ⟨by norm_num [syst_sim, syst_sim_go, syst_sim_step, envStep, QregStep, spillStep,
      storageStep, List.replicate, List.set],
    (C2_release_clamp 1 [0] [0] [5] 3 100 4 [5] (by norm_num) (by norm_num) (by norm_num)
      (by norm_num) ⟨[3, 0], [3], [0], [0]⟩
      (by norm_num [syst_sim, syst_sim_go, syst_sim_step, envStep, QregStep, spillStep,
        storageStep, List.replicate, List.set]) 0 (by norm_num)).1 (by norm_num)⟩

/-- Counterexample to claim C3: at `S=100, I=1, e=0, env_min=5` the water
available `S+I-e = 101` is ample (`env_min ≤ 101`), yet the environmental
release is reduced to the inflow `1` rather than staying at `env_min = 5`,
because the inflow rule `env_min ≥ I[t]` fires regardless of storage. -/
theorem C3_counterexample :
    (syst_sim 1 [1] [0] [0] 100 1000 5 [0]).map SimState.env = some [1] ∧
    (5:ℚ) ≤ 100 + 1 - 0 ∧
    (1:ℚ) ≠ 5 := by
  refine ⟨?_, by norm_num, by norm_num⟩
  norm_num [syst_sim, syst_sim_go, syst_sim_step, envStep, QregStep, spillStep,
    storageStep, List.replicate, List.set]

/-- Claim C3 as amended: `env[t] = env_min` unless `env_min ≥ I[t]` (then
`env[t] = I[t]`) or `env_min ≥ S[t]+I[t]-e[t]` (then
`env[t] = max(0, S[t]+I[t]-e[t])`, this rule prevailing when both fire);
the reduction can therefore occur even when ample water is available,
namely when the inflow alone is at most `env_min`; given non-negative
`env_min` and inflow the value is never negative and never exceeds
`env_min`. -/
theorem C3_env_rule (N : ℕ) (I e d : List ℚ) (S0 Smax env_min : ℚ) (Qreg : List ℚ)
    (hI : N ≤ I.length) (he : N ≤ e.length) (hd : N ≤ d.length) (hq : N ≤ Qreg.length)
    (res : SimState) (hres : syst_sim N I e d S0 Smax env_min Qreg = some res)
    (t : ℕ) (ht : t < N) :
    res.env.getD t 0 =
      (if env_min ≥ res.S.getD t 0 + I.getD t 0 - e.getD t 0
        then max 0 (res.S.getD t 0 + I.getD t 0 - e.getD t 0)
        else if env_min ≥ I.getD t 0 then I.getD t 0 else env_min) ∧
    (0 ≤ env_min → 0 ≤ I.getD t 0 →
      0 ≤ res.env.getD t 0 ∧ res.env.getD t 0 ≤ env_min) := by
  obtain ⟨-, hfacts⟩ := syst_sim_facts N I e d S0 Smax env_min Qreg hI he hd hq res hres
  obtain ⟨henv, -, -, -⟩ := hfacts t ht
  rw [henv]
  simp only [envStep]
  constructor
  · trivial
  · intro hmin hinfl
    split_ifs with h1 h2
    · exact ⟨le_max_left _ _, max_le hmin h1⟩
    · exact ⟨hinfl, h2⟩
    · exact ⟨hmin, le_refl _⟩

/-- Witness for the amended C3 at input `N=1, I=[1], e=[0], d=[0], S0=100,
Smax=1000, env_min=5, Qreg=[0]`: the inflow rule fires and `env = 1`. -/
theorem C3_witness :
    syst_sim 1 [1] [0] [0] 100 1000 5 [0] = some ⟨[100, 100], [1], [0], [0]⟩ ∧
    ((⟨[100, 100], [1], [0], [0]⟩ : SimState).env.getD 0 0 =
      (if (5:ℚ) ≥ (⟨[100, 100], [1], [0], [0]⟩ : SimState).S.getD 0 0
          + ([1] : List ℚ).getD 0 0 - ([0] : List ℚ).getD 0 0
        then max 0 ((⟨[100, 100], [1], [0], [0]⟩ : SimState).S.getD 0 0
          + ([1] : List ℚ).getD 0 0 - ([0] : List ℚ).getD 0 0)
        else if (5:ℚ) ≥ ([1] : List ℚ).getD 0 0 then ([1] : List ℚ).getD 0 0 else 5) ∧
      (0 ≤ (5:ℚ) → 0 ≤ ([1] : List ℚ).getD 0 0 →
        0 ≤ (⟨[100, 100], [1], [0], [0]⟩ : SimState).env.getD 0 0 ∧
        (⟨[100, 100], [1], [0], [0]⟩ : SimState).env.getD 0 0 ≤ 5)) :=
  ⟨by norm_num [syst_sim, syst_sim_go, syst_sim_step, envStep, QregStep, spillStep,
      storageStep, List.replicate, List.set],
    C3_env_rule 1 [1] [0] [0] 100 1000 5 [0] (by norm_num) (by norm_num) (by norm_num)
      (by norm_num) ⟨[100, 100], [1], [0], [0]⟩
      (by norm_num [syst_sim, syst_sim_go, syst_sim_step, envStep, QregStep, spillStep,
        storageStep, List.replicate, List.set]) 0 (by norm_num)⟩

/-- Counterexample to claim C4: the initial storage `150` lies outside the
claimed admissible band `[0, Smax] = [0, 100]`, yet the simulator performs
no validation and returns a full result instead of failing. -/
theorem C4_counterexample :
    (syst_sim 1 [5] [0] [3] 150 100 2 [4]).isSome = true ∧ ¬ ((150:ℚ) ≤ 100) := by
  refine ⟨?_, by norm_num⟩
  norm_num [syst_sim, syst_sim_go, syst_sim_step, envStep, QregStep, spillStep,
    storageStep, List.replicate, List.set, Option.isSome]

/-- Counterexample to claim C5: the deficit scenario clamps the release in
the caller-supplied array itself — the `Qreg` array handed in as `[5]`
holds `[0]` after the call (the source assigns `Qreg[t] = min(...)` into
the caller's array and returns that same array). -/
theorem C5_counterexample :
    (syst_sim 1 [0] [0] [5] 3 100 4 [5]).map SimState.Qreg = some [0] ∧
    ([0] : List ℚ) ≠ [5] := by
  refine ⟨?_, by norm_num⟩
  norm_num [syst_sim, syst_sim_go, syst_sim_step, envStep, QregStep, spillStep,
    storageStep, List.replicate, List.set]

/-- Claim C5 as amended: the simulator mutates exactly one caller-supplied
input, the release-directive array `Qreg`, whose entries inside the horizon
are overwritten with the clamped releases (never larger than the supplied
values) while entries beyond the horizon are untouched; the inflow,
evaporation and demand series are only read. -/
theorem C5_qreg_mutation (N : ℕ) (I e d : List ℚ) (S0 Smax env_min : ℚ) (Qreg : List ℚ)
    (hI : N ≤ I.length) (he : N ≤ e.length) (hd : N ≤ d.length) (hq : N ≤ Qreg.length)
    (res : SimState) (hres : syst_sim N I e d S0 Smax env_min Qreg = some res)
    (t : ℕ) :
    (t < N → res.Qreg.getD t 0 ≤ Qreg.getD t 0) ∧
    (N ≤ t → res.Qreg.getD t 0 = Qreg.getD t 0) := by
  obtain ⟨hframe, hfacts⟩ := syst_sim_facts N I e d S0 Smax env_min Qreg hI he hd hq res hres
  constructor
  · intro ht
    obtain ⟨-, hqreg, -, -⟩ := hfacts t ht
    rw [hqreg, QregStep]
    split
    · exact min_le_left _ _
    · exact le_refl _
  · intro ht
    exact hframe t ht

/-- Witness for the amended C5 at the deficit scenario: the entry inside the
horizon has decreased (0 ≤ 5). -/
theorem C5_witness :
    syst_sim 1 [0] [0] [5] 3 100 4 [5] = some ⟨[3, 0], [3], [0], [0]⟩ ∧
    (⟨[3, 0], [3], [0], [0]⟩ : SimState).Qreg.getD 0 0 ≤ ([5] : List ℚ).getD 0 0 :=
  ⟨by norm_num [syst_sim, syst_sim_go, syst_sim_step, envStep, QregStep, spillStep,
      storageStep, List.replicate, List.set],
    (C5_qreg_mutation 1 [0] [0] [5] 3 100 4 [5] (by norm_num) (by norm_num) (by norm_num)
      (by norm_num) ⟨[3, 0], [3], [0], [0]⟩
      (by norm_num [syst_sim, syst_sim_go, syst_sim_step, envStep, QregStep, spillStep,
        storageStep, List.replicate, List.set]) 0).1 (by norm_num)⟩

/-- Claim C10: whenever `I[t] ≤ env_min`, `env_min ≥ S[t]+I[t]-e[t]` and
`e[t] < S[t]` (with non-negative inflow), the second clamping rule
overwrites the inflow-capped value with `S[t]+I[t]-e[t]`, which strictly
exceeds that step's inflow. -/
theorem C10_env_exceeds_inflow (N : ℕ) (I e d : List ℚ) (S0 Smax env_min : ℚ)
    (Qreg : List ℚ)
    (hI : N ≤ I.length) (he : N ≤ e.length) (hd : N ≤ d.length) (hq : N ≤ Qreg.length)
    (res : SimState) (hres : syst_sim N I e d S0 Smax env_min Qreg = some res)
    (t : ℕ) (ht : t < N)
    (h1 : I.getD t 0 ≤ env_min)
    (h2 : env_min ≥ res.S.getD t 0 + I.getD t 0 - e.getD t 0)
    (h3 : e.getD t 0 < res.S.getD t 0)
    (h4 : 0 ≤ I.getD t 0) :
    res.env.getD t 0 = res.S.getD t 0 + I.getD t 0 - e.getD t 0 ∧
    I.getD t 0 < res.env.getD t 0 := by
  obtain ⟨-, hfacts⟩ := syst_sim_facts N I e d S0 Smax env_min Qreg hI he hd hq res hres
  obtain ⟨henv, -, -, -⟩ := hfacts t ht
  rw [henv]
  simp only [envStep]
  rw [if_pos h2, max_eq_right (by linarith)]
  exact ⟨rfl, by linarith⟩

/-- Witness for C10 at the claim's example `S=5, I=1, e=0, env_min=6`: the
environmental release is 6, strictly above the inflow 1. -/
theorem C10_witness :
    syst_sim 1 [1] [0] [0] 5 1000 6 [0] = some ⟨[5, 0], [6], [0], [0]⟩ ∧
    ((⟨[5, 0], [6], [0], [0]⟩ : SimState).env.getD 0 0 =
      (⟨[5, 0], [6], [0], [0]⟩ : SimState).S.getD 0 0 + ([1] : List ℚ).getD 0 0
        - ([0] : List ℚ).getD 0 0 ∧
      ([1] : List ℚ).getD 0 0 < (⟨[5, 0], [6], [0], [0]⟩ : SimState).env.getD 0 0) :=
  ⟨by norm_num [syst_sim, syst_sim_go, syst_sim_step, envStep, QregStep, spillStep,
      storageStep, List.replicate, List.set],
    C10_env_exceeds_inflow 1 [1] [0] [0] 5 1000 6 [0] (by norm_num) (by norm_num)
      (by norm_num) (by norm_num) ⟨[5, 0], [6], [0], [0]⟩
      (by norm_num [syst_sim, syst_sim_go, syst_sim_step, envStep, QregStep, spillStep,
        storageStep, List.replicate, List.set]) 0 (by norm_num) (by norm_num)
      (by norm_num) (by norm_num) (by norm_num)⟩

/-- Claim C9: for every valid parameter tuple, the log-exponential policy is
continuous at `storage_fraction = s_frac_ref` — both branches, and the
policy itself, evaluate to `u_ref` there. -/
theorem C9_policy_continuity (u_frac_min s_frac_ref alpha b u_ref : ℝ)
    (h1 : 0 < u_frac_min) (h2 : u_frac_min < 1) (h3 : 0 < s_frac_ref)
    (h4 : s_frac_ref < 1) (h5 : 0 < alpha) (h6 : 0 < u_ref) :
    logexp_log_branch u_frac_min s_frac_ref alpha u_ref s_frac_ref = u_ref ∧
    logexp_exp_branch s_frac_ref b u_ref s_frac_ref = u_ref ∧
    log_exponential_release u_frac_min s_frac_ref alpha b u_ref s_frac_ref = u_ref := by
  have hp : (0:ℝ) < s_frac_ref ^ alpha := Real.rpow_pos_of_pos h3 alpha
  have hk : 1 / s_frac_ref ^ alpha * (Real.exp (1 - u_frac_min) - 1) * s_frac_ref ^ alpha
      = Real.exp (1 - u_frac_min) - 1 := by
    field_simp
  have hlog : logexp_log_branch u_frac_min s_frac_ref alpha u_ref s_frac_ref = u_ref := by
    rw [logexp_log_branch, hk, sub_add_cancel, Real.log_exp]
    ring
  have hexp : logexp_exp_branch s_frac_ref b u_ref s_frac_ref = u_ref := by
    rw [logexp_exp_branch, sub_self]
    simp
  exact ⟨hlog, hexp, by
    rw [log_exponential_release, if_neg (lt_irrefl s_frac_ref)]
    exact hexp⟩

/-- Witness for C9 at the valid parameters `u_frac_min = 1/2,
s_frac_ref = 1/2, alpha = 1, b = 3, u_ref = 2`. -/
theorem C9_witness :
    ((0:ℝ) < 1/2 ∧ (1/2:ℝ) < 1 ∧ (0:ℝ) < 1 ∧ (0:ℝ) < 2) ∧
    (logexp_log_branch (1/2) (1/2) 1 2 (1/2) = 2 ∧
      logexp_exp_branch (1/2) 3 2 (1/2) = 2 ∧
      log_exponential_release (1/2) (1/2) 1 3 2 (1/2) = 2) :=
  ⟨⟨by norm_num, by norm_num, by norm_num, by norm_num⟩,
    C9_policy_continuity (1/2) (1/2) 1 3 2 (by norm_num) (by norm_num) (by norm_num)
      (by norm_num) (by norm_num) (by norm_num)⟩
